import Mathlib

/-
Verification of packages/astro/src/runtime/server/render/astro/render.ts:
a shallow embedding of the three delivery adapters (renderToString,
renderToReadableStream, renderToAsyncIterable), the entry dispatcher
(callComponentAsTemplateResultOrResponse), the head-propagation pass
(bufferHeadContent) and the doctype-injection logic they share.

The component tree is modelled by the sequence of chunks its render
operation writes into the destination, followed by its completion outcome
(the script of one render run).  `chunkToString` / `chunkToByteArray` /
`encoder` live in ../common.js, outside this repository's staged sources;
following the spec's external-interface section they are taken as pure
functions of the render context (the `Conversions` record), and the text
encoder as a pure byte encoding of strings.
-/

namespace AstroRender

/-- Source location carried by an error: the `{file}` object the adapters
attach (`file: route?.component`, which may be undefined). -/
structure ErrorLocation where
  file : Option String
deriving DecidableEq

/-- An AstroError value: its error-datum name, its optional source location
(`e.loc`), and the arguments handed to the external message formatter
(`(route?.route, typeof factoryResult)` for OnlyResponseCanBeReturned). -/
structure AstroErr where
  name : String
  loc : Option ErrorLocation
  msgArgs : Option (Option String × String)
deriving DecidableEq

/-- A value thrown or rejected with during a render: either an AstroError
(`AstroError.is` holds) or any other value (a plain Error, a string, ...),
which the code treats as opaque. -/
inductive RenderError where
  | astro (e : AstroErr)
  | other (tag : Nat)
deriving DecidableEq

/-- The AstroErrorData.ResponseSentError datum as the adapters throw it:
no location, no message arguments. -/
def responseSentError : AstroErr :=
  { name := "ResponseSentError", loc := none, msgArgs := none }

/-- The `AstroError.is(e)` type guard. -/
def AstroErrorIs : RenderError → Bool
  | .astro _ => true
  | .other _ => false

/-- The `!e.loc` test: an AstroError with no location, and any non-Astro
value (whose `loc` property is undefined, hence falsy). -/
def hasLoc : RenderError → Bool
  | .astro e => e.loc.isSome
  | .other _ => false

/-- Route metadata (`RouteData`): only the two fields render.ts reads. -/
structure RouteData where
  route : String
  component : String
deriving DecidableEq

/-- The catch handler of renderToReadableStream, lines 117-121: if the
error is an AstroError without a location, `e.setLocation({file:
route?.component})`; otherwise the value passes through unchanged. -/
def catchLocationFix (routeData : Option RouteData) (e : RenderError) : RenderError :=
  if AstroErrorIs e && !hasLoc e then
    match e with
    | .astro a => .astro { a with loc := some { file := routeData.map RouteData.component } }
    | .other t => .other t
  else e

/-- A chunk written into a render destination: a string-like content chunk
(with its JS string coercion equal to its payload), or a Response object
written mid-stream. -/
inductive Chunk where
  | content (s : String)
  | response (r : Nat)
deriving DecidableEq

/-- `String(chunk)`: JS string coercion, as applied by the doctype regex
test.  A Response coerces to "[object Response]". -/
def jsStringOfChunk : Chunk → String
  | .content s => s
  | .response _ => "[object Response]"

/-- `DOCTYPE_EXP.test s` for `DOCTYPE_EXP = /<!doctype html/i`: whether `s`
contains the marker "<!doctype html" case-insensitively. -/
def doctypeMatch (s : String) : Bool :=
  decide ("<!doctype html".toList <:+: (s.toList.map Char.toLower))

/-- Completion outcome of a template's render operation: the returned
promise resolves, or rejects with an error value. -/
inductive RenderOutcome where
  | success
  | failure (e : RenderError)
deriving DecidableEq

/-- A render-template result (a composable content node): modelled by the
script of its render operation — the chunks it writes, in document order,
followed by its completion outcome. -/
structure TemplateResult where
  writes : List Chunk
  outcome : RenderOutcome
deriving DecidableEq

/-- The awaited result of the component factory: a Response (short-circuit),
a render-template result, a head+content pair wrapping one, or any other
value (a configuration error; its `typeof` string is carried). -/
inductive FactoryResult where
  | response (r : Nat)
  | template (t : TemplateResult)
  | headAndContent (head : String) (content : TemplateResult)
  | invalid (typeTag : String)
deriving DecidableEq

/-- The `isRenderTemplateResult` guard (imported from render-template.ts,
outside the staged sources).  Modelled from the spec: a composable render
node is a plain template result or a head+content pair. -/
def isRenderTemplateResult : FactoryResult → Bool
  | .template _ => true
  | .headAndContent _ _ => true
  | _ => false

/-- The `isHeadAndContent` guard (imported from head-and-content.ts,
outside the staged sources). -/
def isHeadAndContent : FactoryResult → Bool
  | .headAndContent _ _ => true
  | _ => false

/-- The head fragment of a head+content pair, if the value is one. -/
def headOf : FactoryResult → Option String
  | .headAndContent h _ => some h
  | _ => none

/-- `typeof factoryResult` as passed to the message formatter. -/
def typeofResult : FactoryResult → String
  | .invalid typeTag => typeTag
  | _ => "object"

/-- `result._metadata`: the propagator set (in iteration order, each
deferred instance modelled by its awaited `init` result) and the
append-only extraHead sequence. -/
structure Metadata where
  propagators : List FactoryResult
  extraHead : List String
deriving DecidableEq

/-- The SSRResult render context, restricted to the fields render.ts
reads: `partial` (named isPartial here; `partial` is reserved in Lean),
`compressHTML`, and `_metadata`. -/
structure SSRResult where
  isPartial : Bool
  compressHTML : Bool
  metadata : Metadata
deriving DecidableEq

/-- The two chunk conversions of common.js (`chunkToString`,
`chunkToByteArray`), outside the staged sources.  Modelled from the spec:
pure functions of the render context and the chunk (here its string
payload; both are only ever applied to non-Response chunks). -/
structure Conversions where
  toText : SSRResult → String → String
  toBytes : SSRResult → String → List Nat

/-- The common.js text `encoder` (outside the staged sources).  Modelled
from the spec: a pure byte encoding; on the ASCII-only strings it is
applied to here it agrees with UTF-8. -/
def encodeBytes (s : String) : List Nat :=
  s.toList.map Char.toNat

/-- The doctype unit: `<!DOCTYPE html>` when compressHTML, otherwise with a
trailing newline (render.ts lines 40, 91, 248). -/
def doctypeUnit (ctx : SSRResult) : String :=
  if ctx.compressHTML then "<!DOCTYPE html>" else "<!DOCTYPE html>\n"

/-- Whether a render with the given page flag and write script triggers
doctype insertion: there is a first chunk, the render is a full non-partial
page, and the first chunk's string coercion does not already contain the
doctype marker. -/
def doctypeInserted (ctx : SSRResult) (isPage : Bool) (writes : List Chunk) : Bool :=
  match writes with
  | [] => false
  | c :: _ => isPage && !ctx.isPartial && !doctypeMatch (jsStringOfChunk c)

/-- Doctype byte chunks emitted at the head of a byte-oriented adapter's
output, as a function of the first-chunk-seen flag at the start of the
script: one encoded doctype unit, or nothing. -/
def dtIf (ctx : SSRResult) (isPage rfpc : Bool) (writes : List Chunk) : List (List Nat) :=
  match writes with
  | [] => []
  | c :: _ =>
    if isPage && !rfpc && !ctx.isPartial && !doctypeMatch (jsStringOfChunk c) then
      [encodeBytes (doctypeUnit ctx)]
    else []

/-- The doctype bytes actually inserted for a script starting with a fresh
destination (first-chunk flag unset). -/
def doctypeBytes (ctx : SSRResult) (isPage : Bool) (writes : List Chunk) : List Nat :=
  if doctypeInserted ctx isPage writes then encodeBytes (doctypeUnit ctx) else []

/-- Converted text of the content chunks of a script, in order (Response
chunks contribute nothing). -/
def contentTexts (conv : Conversions) (ctx : SSRResult) (writes : List Chunk) : List String :=
  writes.filterMap fun c =>
    match c with
    | .content s => some (conv.toText ctx s)
    | .response _ => none

/-- Converted bytes of one chunk (only ever used on content chunks). -/
def contentBytes (conv : Conversions) (ctx : SSRResult) : Chunk → List Nat
  | .content s => conv.toBytes ctx s
  | .response _ => []

/-- Result of the entry dispatcher when it does not throw. -/
inductive DispatchResult where
  | response (r : Nat)
  | template (t : TemplateResult)
deriving DecidableEq

/-- The AstroError thrown for a factory result that is neither a Response
nor a render-template result (render.ts lines 143-149): the
OnlyResponseCanBeReturned datum, message formatted from `route?.route` and
`typeof factoryResult`, location `{file: route?.component}`. -/
def onlyResponseCanBeReturnedError (routeData : Option RouteData) (typeTag : String) : AstroErr :=
  { name := "OnlyResponseCanBeReturned",
    loc := some { file := routeData.map RouteData.component },
    msgArgs := some (routeData.map RouteData.route, typeTag) }

/-- callComponentAsTemplateResultOrResponse (render.ts lines 131-153):
await the factory, return a Response as-is, throw on a non-composable
result, unwrap a head+content pair to its content, and pass a template
result through.  (The `factoryResult instanceof Response` branch, the
`!isRenderTemplateResult` throw and the `isHeadAndContent` ternary map
onto the four constructors one-to-one.) -/
def callComponentAsTemplateResultOrResponse (routeData : Option RouteData)
    (factoryResult : FactoryResult) : Except RenderError DispatchResult :=
  match factoryResult with
  | .response r => .ok (.response r)
  | .template t => .ok (.template t)
  | .headAndContent _ content => .ok (.template content)
  | .invalid typeTag => .error (.astro (onlyResponseCanBeReturnedError routeData typeTag))

/-- bufferHeadContent's loop (render.ts lines 157-170): iterate the
propagator set once, await each instance's init, and append the head of
every head+content result to extraHead, in iteration order. -/
def bufferHeadContent (propagators : List FactoryResult) (extraHead : List String) : List String :=
  propagators.foldl
    (fun acc returnValue =>
      match headOf returnValue with
      | some h => acc ++ [h]
      | none => acc)
    extraHead

/-- The effect of `await bufferHeadContent(result)` on the render context. -/
def runBufferHeadContent (ctx : SSRResult) : SSRResult :=
  { ctx with
    metadata :=
      { ctx.metadata with
        extraHead := bufferHeadContent ctx.metadata.propagators ctx.metadata.extraHead } }

/-- Accumulator state of renderToString's destination: the string built so
far and the renderedFirstPageChunk flag. -/
structure StringWriteState where
  str : String
  renderedFirstPageChunk : Bool
deriving DecidableEq

/-- renderToString's destination write (render.ts lines 34-50): on the
first page chunk, insert the doctype unless partial or already present;
silently drop Response chunks; append the converted text of the rest. -/
def stringWrite (conv : Conversions) (ctx : SSRResult) (isPage : Bool)
    (st : StringWriteState) (chunk : Chunk) : StringWriteState :=
  let st :=
    if isPage && !st.renderedFirstPageChunk then
      let st := { st with renderedFirstPageChunk := true }
      if !ctx.isPartial && !doctypeMatch (jsStringOfChunk chunk) then
        { st with str := st.str ++ doctypeUnit ctx }
      else st
    else st
  match chunk with
  | .response _ => st
  | .content s => { st with str := st.str ++ conv.toText ctx s }

/-- renderToString (render.ts lines 12-55): dispatch the factory result,
return a top-level Response as-is, otherwise drive the template's script
through the accumulating destination; a render failure propagates to the
caller unchanged.  Alongside the output the (unmodified) context is
returned, making it observable that this adapter runs no head pass. -/
def renderToString (conv : Conversions) (ctx : SSRResult) (factoryResult : FactoryResult)
    (isPage : Bool) (routeData : Option RouteData) :
    Except RenderError (SSRResult × (String ⊕ Nat)) :=
  match callComponentAsTemplateResultOrResponse routeData factoryResult with
  | .error e => .error e
  | .ok (.response r) => .ok (ctx, Sum.inr r)
  | .ok (.template t) =>
    let final := t.writes.foldl (stringWrite conv ctx isPage)
      { str := "", renderedFirstPageChunk := false }
    match t.outcome with
    | .success => .ok (ctx, Sum.inl final.str)
    | .failure e => .error e

/-- An event of the ReadableStream's lifetime, in the order the controller
receives it.  `deferredError` stands for the `setTimeout(() =>
controller.error(e), 0)` call: the error reaches the stream only on the
next scheduling tick, after every synchronously enqueued chunk. -/
inductive StreamEvent where
  | enqueue (bytes : List Nat)
  | close
  | deferredError (e : RenderError)
deriving DecidableEq

/-- The byte chunks renderToReadableStream's destination enqueues while the
script's writes are driven (render.ts lines 85-108), together with the
error the write callback throws when it meets a Response chunk mid-stream
(which aborts the remaining writes).  The Bool argument is the
renderedFirstPageChunk flag. -/
def streamWriteEvents (conv : Conversions) (ctx : SSRResult) (isPage : Bool) :
    List Chunk → Bool → List (List Nat) × Option RenderError
  | [], _ => ([], none)
  | chunk :: rest, rfpc =>
    let doctypeOut : List (List Nat) :=
      if isPage && !rfpc && !ctx.isPartial && !doctypeMatch (jsStringOfChunk chunk) then
        [encodeBytes (doctypeUnit ctx)]
      else []
    match chunk with
    | .response _ => (doctypeOut, some (.astro responseSentError))
    | .content s =>
      let out := streamWriteEvents conv ctx isPage rest (rfpc || isPage)
      (doctypeOut ++ [conv.toBytes ctx s] ++ out.1, out.2)

/-- The full event trace of the stream built over one template render
(render.ts lines 83-128): the enqueued chunks, then `controller.close()` on
success, or — for a rejection of the render promise or a throw out of the
write callback — the location-fixed error, deferred one tick. -/
def streamTrace (conv : Conversions) (ctx : SSRResult) (isPage : Bool)
    (routeData : Option RouteData) (t : TemplateResult) : List StreamEvent :=
  let out := streamWriteEvents conv ctx isPage t.writes false
  let enqueues := out.1.map StreamEvent.enqueue
  match out.2 with
  | some e => enqueues ++ [.deferredError (catchLocationFix routeData e)]
  | none =>
    match t.outcome with
    | .success => enqueues ++ [.close]
    | .failure e => enqueues ++ [.deferredError (catchLocationFix routeData e)]

/-- What renderToReadableStream resolves with: the top-level Response, or
the stream (observed through its event trace). -/
inductive StreamOut where
  | response (r : Nat)
  | stream (events : List StreamEvent)
deriving DecidableEq

/-- renderToReadableStream (render.ts lines 58-129): dispatch, return a
top-level Response as-is, otherwise — for a page — run the head pass to
completion, then build the stream whose start drives the template's script
through the enqueueing destination. -/
def renderToReadableStream (conv : Conversions) (ctx : SSRResult) (factoryResult : FactoryResult)
    (isPage : Bool) (routeData : Option RouteData) :
    Except RenderError (SSRResult × StreamOut) :=
  match callComponentAsTemplateResultOrResponse routeData factoryResult with
  | .error e => .error e
  | .ok (.response r) => .ok (ctx, .response r)
  | .ok (.template t) =>
    let ctx := if isPage then runBufferHeadContent ctx else ctx
    .ok (ctx, .stream (streamTrace conv ctx isPage routeData t))

/-- The byte chunks a stream trace delivers to the consumer. -/
def streamEnqueuedBytes (events : List StreamEvent) : List (List Nat) :=
  events.filterMap fun ev =>
    match ev with
    | .enqueue b => some b
    | _ => none

/-- State of the async-iterable adapter shared between the render task and
the iterator (render.ts lines 200-266): the recorded error, the byte
buffer, whether the current outstanding signal (`next`) is resolved, and
the renderedFirstPageChunk flag of its destination. -/
structure IterState where
  error : Option RenderError
  buffer : List (List Nat)
  resolved : Bool
  renderedFirstPageChunk : Bool
deriving DecidableEq

/-- The async-iterable destination's write (render.ts lines 243-266): push
doctype bytes on the first page chunk, throw ResponseSentError on a
mid-stream Response, convert the chunk and — only when non-empty — push it
and resolve the outstanding signal, immediately replacing it with a fresh
unresolved one. -/
def iterWrite (conv : Conversions) (ctx : SSRResult) (isPage : Bool)
    (st : IterState) (chunk : Chunk) : IterState × Option RenderError :=
  let st :=
    if isPage && !st.renderedFirstPageChunk then
      let st := { st with renderedFirstPageChunk := true }
      if !ctx.isPartial && !doctypeMatch (jsStringOfChunk chunk) then
        { st with buffer := st.buffer ++ [encodeBytes (doctypeUnit ctx)] }
      else st
    else st
  match chunk with
  | .response _ => (st, some (.astro responseSentError))
  | .content s =>
    let bytes := conv.toBytes ctx s
    if bytes.isEmpty then (st, none)
    else ({ st with buffer := st.buffer ++ [bytes], resolved := false }, none)

/-- Drive a script's writes through iterWrite; a thrown error aborts the
remaining writes and is returned. -/
def iterWritesGo (conv : Conversions) (ctx : SSRResult) (isPage : Bool) :
    List Chunk → IterState → IterState × Option RenderError
  | [], st => (st, none)
  | chunk :: rest, st =>
    match iterWrite conv ctx isPage st chunk with
    | (st, some e) => (st, some e)
    | (st, none) => iterWritesGo conv ctx isPage rest st

/-- The state left by the render task of renderToAsyncIterable (render.ts
lines 268-278): drive the writes; on fulfilment resolve the outstanding
signal one final time; on rejection (a render failure, or the write
callback's ResponseSentError) record the error and resolve the signal. -/
def iterProducer (conv : Conversions) (ctx : SSRResult) (isPage : Bool)
    (t : TemplateResult) : IterState :=
  let st0 : IterState :=
    { error := none, buffer := [], resolved := false, renderedFirstPageChunk := false }
  match iterWritesGo conv ctx isPage t.writes st0 with
  | (st, some e) => { st with error := some e, resolved := true }
  | (st, none) =>
    match t.outcome with
    | .success => { st with resolved := true }
    | .failure e => { st with error := some e, resolved := true }

/-- Total length of the buffered byte chunks, as the first loop of `next()`
computes it (render.ts lines 216-219). -/
def totalLength (buffer : List (List Nat)) : Nat :=
  buffer.foldl (fun acc b => acc + b.length) 0

/-- `mergedArray.set(item, offset)` on the list model: overwrite
`item.length` entries starting at `offset`. -/
def setRange (arr : List Nat) (offset : Nat) (item : List Nat) : List Nat :=
  arr.take offset ++ item ++ arr.drop (offset + item.length)

/-- The merge loop of `next()` (render.ts lines 224-228): copy each
buffered chunk into the merged array at its running offset. -/
def mergeInto : List (List Nat) → List Nat → Nat → List Nat
  | [], arr, _ => arr
  | item :: rest, arr, offset => mergeInto rest (setRange arr offset item) (offset + item.length)

/-- The merged array `next()` builds: a zero-initialised array of the total
length, filled chunk by chunk (render.ts lines 222-228). -/
def mergeBuffer (buffer : List (List Nat)) : List Nat :=
  mergeInto buffer (List.replicate (totalLength buffer) 0) 0

/-- What one `next()` call returns (render.ts lines 233-237). -/
structure IterStep where
  done : Bool
  value : List Nat
deriving DecidableEq

/-- One `next()` call (render.ts lines 207-240) as a function of the shared
state: `none` while the outstanding signal is unresolved (the call is still
awaiting it); once resolved, rethrow a recorded error (leaving the state
untouched), or merge the buffer, clear it, and report done exactly when the
merged array is empty. -/
def iterNext (st : IterState) : Option (Except RenderError IterStep × IterState) :=
  if st.resolved then
    some <|
      match st.error with
      | some e => (.error e, st)
      | none =>
        let length := totalLength st.buffer
        let mergedArray := mergeBuffer st.buffer
        (.ok { done := length == 0, value := mergedArray }, { st with buffer := [] })
  else none

/-- The results of `n` successive `next()` calls from a given state (a call
that never returns ends the list). -/
def iterNextTrace : Nat → IterState → List (Except RenderError IterStep)
  | 0, _ => []
  | n + 1, st =>
    match iterNext st with
    | none => []
    | some (r, st') => r :: iterNextTrace n st'

/-- What renderToAsyncIterable resolves with: the top-level Response, or
the iterable (observed through the state its render task leaves). -/
inductive IterOut where
  | response (r : Nat)
  | iterable (st : IterState)
deriving DecidableEq

/-- renderToAsyncIterable (render.ts lines 172-287): dispatch, return a
top-level Response as-is, otherwise — for a page — run the head pass to
completion, then start the render task that feeds the buffer. -/
def renderToAsyncIterable (conv : Conversions) (ctx : SSRResult) (factoryResult : FactoryResult)
    (isPage : Bool) (routeData : Option RouteData) :
    Except RenderError (SSRResult × IterOut) :=
  match callComponentAsTemplateResultOrResponse routeData factoryResult with
  | .error e => .error e
  | .ok (.response r) => .ok (ctx, .response r)
  | .ok (.template t) =>
    let ctx := if isPage then runBufferHeadContent ctx else ctx
    .ok (ctx, .iterable (iterProducer conv ctx isPage t))

/-- One scheduling step of the interleaved producer/consumer execution of
the async-iterable adapter: the render task performs its next write (or
completes), or the consumer performs a `next()` call. -/
inductive IterOp where
  | renderStep
  | pull
deriving DecidableEq

/-- A point of the interleaved execution: the shared state, the writes the
render task has not yet performed, whether it has settled, and the arrays
the consumer's `next()` calls have returned so far. -/
structure IterRun where
  st : IterState
  pending : List Chunk
  completed : Bool
  delivered : List (List Nat)
deriving DecidableEq

/-- The semantics of one scheduling step.  A `renderStep` with writes left
performs the next write (a thrown error settles the task, recording the
error and resolving the signal); with none left it settles the task with
the script's outcome.  A `pull` performs a `next()` call when the signal is
resolved (otherwise the call keeps waiting and nothing happens), recording
a returned merged array. -/
def iterSchedStep (conv : Conversions) (ctx : SSRResult) (isPage : Bool)
    (t : TemplateResult) (r : IterRun) : IterOp → IterRun
  | .renderStep =>
    if r.completed then r
    else
      match r.pending with
      | [] =>
        match t.outcome with
        | .success => { r with completed := true, st := { r.st with resolved := true } }
        | .failure e =>
          { r with completed := true, st := { r.st with error := some e, resolved := true } }
      | chunk :: rest =>
        match iterWrite conv ctx isPage r.st chunk with
        | (st, none) => { r with st := st, pending := rest }
        | (st, some e) =>
          { r with completed := true, pending := rest,
                   st := { st with error := some e, resolved := true } }
  | .pull =>
    match iterNext r.st with
    | none => r
    | some (.error _, st) => { r with st := st }
    | some (.ok step, st) => { r with st := st, delivered := r.delivered ++ [step.value] }

/-- An interleaved execution of the async-iterable adapter over a schedule
of steps, from the initial state. -/
def iterSchedRun (conv : Conversions) (ctx : SSRResult) (isPage : Bool)
    (t : TemplateResult) (ops : List IterOp) : IterRun :=
  ops.foldl (iterSchedStep conv ctx isPage t)
    { st := { error := none, buffer := [], resolved := false, renderedFirstPageChunk := false },
      pending := t.writes, completed := false, delivered := [] }

/-- Concatenation of a list of strings, in order. -/
def strConcat : List String → String
  | [] => ""
  | s :: rest => s ++ strConcat rest

/-- The doctype string the string adapter inserts, as a function of the
first-chunk-seen flag at the start of the script. -/
def dtStr (ctx : SSRResult) (isPage rfpc : Bool) (writes : List Chunk) : String :=
  match writes with
  | [] => ""
  | c :: _ =>
    if isPage && !rfpc && !ctx.isPartial && !doctypeMatch (jsStringOfChunk c) then
      doctypeUnit ctx
    else ""

/-- Converted text of one chunk as the string adapter appends it (nothing
for a dropped Response). -/
def chunkText (conv : Conversions) (ctx : SSRResult) : Chunk → String
  | .content s => conv.toText ctx s
  | .response _ => ""

/-- Converted bytes of a list of payloads with the empty ones removed, as
the async-iterable destination pushes them. -/
def bytesFiltered (conv : Conversions) (ctx : SSRResult) (ss : List String) : List (List Nat) :=
  (ss.map (conv.toBytes ctx)).filter (fun b => !b.isEmpty)

/-- The conservation invariant of the interleaved async-iterable execution
over the all-content script `ss` with successful outcome: some prefix of
the writes has been performed, no error is recorded, the first-chunk flag
matches, and the bytes delivered so far followed by the bytes still
buffered are exactly the bytes of the performed prefix (doctype included). -/
def IterInv (conv : Conversions) (ctx : SSRResult) (isPage : Bool) (ss : List String)
    (r : IterRun) : Prop :=
  ∃ k, r.pending = (ss.map Chunk.content).drop k ∧
    r.st.error = none ∧
    r.st.renderedFirstPageChunk = (isPage && !(k == 0)) ∧
    r.delivered.flatten ++ r.st.buffer.flatten =
      doctypeBytes ctx isPage ((ss.map Chunk.content).take k) ++
        ((ss.take k).map (conv.toBytes ctx)).flatten

/-- The `{file}` of the location an error carries, if any: `some f` when
the error is an AstroError with `loc = {file: f}`, `none` when it has no
location at all (so for every non-Astro value). -/
def errFile : RenderError → Option (Option String)
  | .astro a => a.loc.map ErrorLocation.file
  | .other _ => none

/-- A concrete conversion pair for witnesses: text conversion is the
payload itself, byte conversion its encoding. -/
def convEx : Conversions :=
  { toText := fun _ s => s, toBytes := fun _ s => encodeBytes s }

/-- A concrete render context for witnesses: a full uncompressed page with
empty metadata. -/
def ctxEx : SSRResult :=
  { isPartial := false, compressHTML := false,
    metadata := { propagators := [], extraHead := [] } }

/-- A concrete route for witnesses. -/
def routeEx : RouteData :=
  { route := "/index", component := "pages/index.astro" }

theorem totalLength_go (l : List (List Nat)) (n : Nat) :
    List.foldl (fun acc b => acc + b.length) n l = n + (l.map List.length).sum := by
  induction l generalizing n with
  | nil => simp
  | cons b rest ih => simp [List.foldl_cons, ih]; omega

/-- The length loop of `next()` computes the sum of the chunk lengths. -/
theorem totalLength_eq (l : List (List Nat)) : totalLength l = (l.map List.length).sum := by
  simpa [totalLength] using totalLength_go l 0

theorem mergeInto_general (items : List (List Nat)) :
    ∀ (pre suffix : List Nat), suffix.length = (items.map List.length).sum →
    mergeInto items (pre ++ suffix) pre.length = pre ++ items.flatten := by
  induction items with
  | nil =>
    intro pre suffix h
    have hs : suffix = [] := List.eq_nil_of_length_eq_zero (by simpa using h)
    simp [mergeInto, hs]
  | cons item rest ih =>
    intro pre suffix h
    have hset : setRange (pre ++ suffix) pre.length item
        = (pre ++ item) ++ suffix.drop item.length := by
      rw [setRange, List.take_left, List.drop_append]
      try simp [List.append_assoc]
    have hlen : (suffix.drop item.length).length = (rest.map List.length).sum := by
      simp only [List.map_cons, List.sum_cons] at h
      simp [List.length_drop, h]
    have hrec := ih (pre ++ item) (suffix.drop item.length) hlen
    rw [mergeInto, hset, ← List.length_append pre item, hrec]
    simp [List.append_assoc]

/-- The merge loop of `next()` concatenates the buffered chunks in buffer
order: no byte is duplicated, dropped or reordered. -/
theorem mergeBuffer_eq (buffer : List (List Nat)) : mergeBuffer buffer = buffer.flatten := by
  have h : (List.replicate (totalLength buffer) 0).length = (buffer.map List.length).sum := by
    simp [totalLength_eq]
  have := mergeInto_general buffer [] (List.replicate (totalLength buffer) 0) h
  simpa [mergeBuffer] using this

theorem dtStr_seen (ctx : SSRResult) (isPage rfpc : Bool) (writes : List Chunk) :
    dtStr ctx isPage (rfpc || isPage) writes = "" := by
  cases writes with
  | nil => rfl
  | cons c rest => cases isPage <;> simp [dtStr]

theorem dtIf_seen (ctx : SSRResult) (isPage rfpc : Bool) (writes : List Chunk) :
    dtIf ctx isPage (rfpc || isPage) writes = [] := by
  cases writes with
  | nil => rfl
  | cons c rest => cases isPage <;> simp [dtIf]

theorem dtStr_fresh (ctx : SSRResult) (isPage : Bool) (writes : List Chunk) :
    dtStr ctx isPage false writes =
      (if doctypeInserted ctx isPage writes then doctypeUnit ctx else "") := by
  cases writes with
  | nil => simp [dtStr, doctypeInserted]
  | cons c rest => simp [dtStr, doctypeInserted]

theorem dtIf_fresh (ctx : SSRResult) (isPage : Bool) (writes : List Chunk) :
    dtIf ctx isPage false writes =
      (if doctypeInserted ctx isPage writes then [encodeBytes (doctypeUnit ctx)] else []) := by
  cases writes with
  | nil => simp [dtIf, doctypeInserted]
  | cons c rest => simp [dtIf, doctypeInserted]

theorem strConcat_contentTexts_cons (conv : Conversions) (ctx : SSRResult)
    (c : Chunk) (rest : List Chunk) :
    strConcat (contentTexts conv ctx (c :: rest)) =
      chunkText conv ctx c ++ strConcat (contentTexts conv ctx rest) := by
  cases c <;> simp [contentTexts, chunkText, strConcat, List.filterMap_cons, String.empty_append]

theorem stringWrite_step (conv : Conversions) (ctx : SSRResult) (isPage : Bool)
    (s : String) (rfpc : Bool) (c : Chunk) (rest : List Chunk) :
    stringWrite conv ctx isPage ⟨s, rfpc⟩ c =
      ⟨s ++ dtStr ctx isPage rfpc (c :: rest) ++ chunkText conv ctx c, rfpc || isPage⟩ := by
  cases c <;> cases isPage <;> cases rfpc <;>
    simp [stringWrite, dtStr, chunkText, String.append_assoc, String.append_empty] <;>
    (try split) <;>
    simp_all [String.append_assoc, String.append_empty]

/-- Closed form of the string adapter's destination over a whole script. -/
theorem stringWrite_fold (conv : Conversions) (ctx : SSRResult) (isPage : Bool)
    (writes : List Chunk) :
    ∀ (s : String) (rfpc : Bool),
    writes.foldl (stringWrite conv ctx isPage) ⟨s, rfpc⟩ =
      ⟨s ++ dtStr ctx isPage rfpc writes ++ strConcat (contentTexts conv ctx writes),
        rfpc || (isPage && !writes.isEmpty)⟩ := by
  induction writes with
  | nil =>
    intro s rfpc
    simp [dtStr, contentTexts, strConcat, String.append_empty]
  | cons c rest ih =>
    intro s rfpc
    rw [List.foldl_cons, stringWrite_step conv ctx isPage s rfpc c rest, ih]
    refine congrArg₂ StringWriteState.mk ?_ ?_
    · rw [dtStr_seen, strConcat_contentTexts_cons]
      simp [String.append_assoc, String.append_empty]
    · cases isPage <;> cases rfpc <;> simp

/-- Closed form of the stream destination over an all-content script: each
chunk's bytes are enqueued in order, after the doctype when inserted, and
no error is thrown. -/
theorem streamWriteEvents_content (conv : Conversions) (ctx : SSRResult) (isPage : Bool)
    (ss : List String) :
    ∀ rfpc, streamWriteEvents conv ctx isPage (ss.map .content) rfpc =
      (dtIf ctx isPage rfpc (ss.map .content) ++ ss.map (conv.toBytes ctx), none) := by
  induction ss with
  | nil => intro rfpc; simp [streamWriteEvents, dtIf]
  | cons s0 rest ih =>
    intro rfpc
    simp only [List.map_cons, streamWriteEvents]
    rw [ih (rfpc || isPage), dtIf_seen]
    simp [dtIf, List.append_assoc]

/-- Closed form of the stream destination over a script whose first
Response chunk sits after `pre`: the doctype (when due) and `pre`'s bytes
are enqueued, then the write throws ResponseSentError, aborting the rest. -/
theorem streamWriteEvents_response (conv : Conversions) (ctx : SSRResult) (isPage : Bool)
    (pre : List String) (r : Nat) (post : List Chunk) :
    ∀ rfpc, streamWriteEvents conv ctx isPage (pre.map .content ++ .response r :: post) rfpc =
      (dtIf ctx isPage rfpc (pre.map .content ++ .response r :: post) ++
          pre.map (conv.toBytes ctx),
        some (.astro responseSentError)) := by
  induction pre with
  | nil => intro rfpc; simp [streamWriteEvents, dtIf]
  | cons s0 rest ih =>
    intro rfpc
    simp only [List.map_cons, List.cons_append, streamWriteEvents, List.append_eq]
    rw [ih (rfpc || isPage), dtIf_seen]
    simp [dtIf, List.append_assoc]

theorem iterWrite_content (conv : Conversions) (ctx : SSRResult) (isPage : Bool)
    (st : IterState) (s0 : String) (rest : List Chunk) :
    iterWrite conv ctx isPage st (.content s0) =
      ({ st with
          buffer := st.buffer ++ dtIf ctx isPage st.renderedFirstPageChunk (.content s0 :: rest) ++
            (if (conv.toBytes ctx s0).isEmpty then [] else [conv.toBytes ctx s0]),
          renderedFirstPageChunk := st.renderedFirstPageChunk || isPage,
          resolved := st.resolved && (conv.toBytes ctx s0).isEmpty }, none) := by
  obtain ⟨e, b, res, rf⟩ := st
  cases isPage <;> cases rf <;>
    simp [iterWrite, dtIf] <;>
    split_ifs <;>
    simp_all [List.append_assoc]

theorem iterWrite_response (conv : Conversions) (ctx : SSRResult) (isPage : Bool)
    (st : IterState) (r : Nat) (rest : List Chunk) :
    iterWrite conv ctx isPage st (.response r) =
      ({ st with
          buffer := st.buffer ++ dtIf ctx isPage st.renderedFirstPageChunk (.response r :: rest),
          renderedFirstPageChunk := st.renderedFirstPageChunk || isPage },
        some (.astro responseSentError)) := by
  obtain ⟨e, b, res, rf⟩ := st
  cases isPage <;> cases rf <;>
    simp [iterWrite, dtIf] <;>
    split_ifs <;>
    simp_all [List.append_assoc]

/-- Closed form of the async-iterable destination over an all-content
script: the buffer grows by the doctype (when inserted) and the non-empty
converted chunks in order; the signal is left unresolved exactly when some
non-empty chunk was pushed. -/
theorem iterWritesGo_content (conv : Conversions) (ctx : SSRResult) (isPage : Bool)
    (ss : List String) :
    ∀ st, iterWritesGo conv ctx isPage (ss.map .content) st =
      ({ st with
          buffer := st.buffer ++ dtIf ctx isPage st.renderedFirstPageChunk (ss.map .content) ++
            bytesFiltered conv ctx ss,
          renderedFirstPageChunk := st.renderedFirstPageChunk || (isPage && !ss.isEmpty),
          resolved := st.resolved && (bytesFiltered conv ctx ss).isEmpty }, none) := by
  induction ss with
  | nil =>
    intro st
    simp [iterWritesGo, dtIf, bytesFiltered]
  | cons s0 rest ih =>
    intro st
    obtain ⟨e, b, res, rf⟩ := st
    simp only [List.map_cons, iterWritesGo, List.append_eq]
    rw [iterWrite_content conv ctx isPage ⟨e, b, res, rf⟩ s0 (rest.map .content)]
    dsimp only
    rw [ih]
    simp only [dtIf_seen, bytesFiltered, List.map_cons, List.filter_cons]
    by_cases hb : (conv.toBytes ctx s0).isEmpty = true <;>
      cases isPage <;> cases rf <;>
      simp_all [List.append_assoc, Bool.and_assoc, Bool.or_assoc]

/-- Closed form of the async-iterable destination up to the first Response
chunk: doctype (when due) and `pre`'s non-empty bytes are buffered, the
first-chunk flag is consumed, and the write throws ResponseSentError. -/
theorem iterWritesGo_response (conv : Conversions) (ctx : SSRResult) (isPage : Bool)
    (pre : List String) (r : Nat) (post : List Chunk) :
    ∀ st, iterWritesGo conv ctx isPage (pre.map .content ++ .response r :: post) st =
      ({ st with
          buffer := st.buffer ++
            dtIf ctx isPage st.renderedFirstPageChunk (pre.map .content ++ .response r :: post) ++
            bytesFiltered conv ctx pre,
          renderedFirstPageChunk := st.renderedFirstPageChunk || isPage,
          resolved := st.resolved && (bytesFiltered conv ctx pre).isEmpty },
        some (.astro responseSentError)) := by
  induction pre with
  | nil =>
    intro st
    simp only [List.map_nil, List.nil_append, iterWritesGo]
    rw [iterWrite_response conv ctx isPage st r post]
    simp [bytesFiltered]
  | cons s0 rest ih =>
    intro st
    obtain ⟨e, b, res, rf⟩ := st
    simp only [List.map_cons, List.cons_append, iterWritesGo, List.append_eq]
    rw [iterWrite_content conv ctx isPage ⟨e, b, res, rf⟩ s0 (rest.map .content ++ .response r :: post)]
    dsimp only
    rw [ih]
    simp only [dtIf_seen, bytesFiltered, List.map_cons, List.filter_cons]
    by_cases hb : (conv.toBytes ctx s0).isEmpty = true <;>
      cases isPage <;> cases rf <;>
      simp_all [List.append_assoc, Bool.and_assoc, Bool.or_assoc]

/-- The state the async-iterable render task leaves for an all-content
script that completes successfully. -/
theorem iterProducer_content (conv : Conversions) (ctx : SSRResult) (isPage : Bool)
    (ss : List String) :
    iterProducer conv ctx isPage ⟨ss.map .content, .success⟩ =
      { error := none,
        buffer := dtIf ctx isPage false (ss.map .content) ++ bytesFiltered conv ctx ss,
        resolved := true,
        renderedFirstPageChunk := isPage && !ss.isEmpty } := by
  simp [iterProducer, iterWritesGo_content]

/-- The state the async-iterable render task leaves for an all-content
script whose render rejects. -/
theorem iterProducer_content_failure (conv : Conversions) (ctx : SSRResult) (isPage : Bool)
    (ss : List String) (e : RenderError) :
    iterProducer conv ctx isPage ⟨ss.map .content, .failure e⟩ =
      { error := some e,
        buffer := dtIf ctx isPage false (ss.map .content) ++ bytesFiltered conv ctx ss,
        resolved := true,
        renderedFirstPageChunk := isPage && !ss.isEmpty } := by
  simp [iterProducer, iterWritesGo_content]

/-- The state the async-iterable render task leaves when a Response chunk
arrives after the content prefix `pre`: the raw ResponseSentError is
recorded (the task's catch attaches no location), the signal resolved. -/
theorem iterProducer_response (conv : Conversions) (ctx : SSRResult) (isPage : Bool)
    (pre : List String) (r : Nat) (post : List Chunk) (outc : RenderOutcome) :
    iterProducer conv ctx isPage ⟨pre.map .content ++ .response r :: post, outc⟩ =
      { error := some (.astro responseSentError),
        buffer := dtIf ctx isPage false (pre.map .content ++ .response r :: post) ++
          bytesFiltered conv ctx pre,
        resolved := true,
        renderedFirstPageChunk := isPage } := by
  simp [iterProducer, iterWritesGo_response]

theorem flatten_pushed (b : List Nat) :
    (if b.isEmpty then ([] : List (List Nat)) else [b]).flatten = b := by
  by_cases hb : b.isEmpty = true
  · simp [hb, List.isEmpty_iff.mp hb]
  · simp [hb]

/-- The interleaved async-iterable execution starts in the invariant. -/
theorem iterInv_init (conv : Conversions) (ctx : SSRResult) (isPage : Bool)
    (ss : List String) :
    IterInv conv ctx isPage ss
      { st := { error := none, buffer := [], resolved := false, renderedFirstPageChunk := false },
        pending := ss.map Chunk.content, completed := false, delivered := [] } := by
  exact ⟨0, by simp, rfl, by simp, by simp [doctypeBytes, doctypeInserted]⟩

/-- Every scheduling step of the async-iterable execution preserves the
conservation invariant (all-content script, successful outcome). -/
theorem iterInv_step (conv : Conversions) (ctx : SSRResult) (isPage : Bool)
    (ss : List String) (r : IterRun) (op : IterOp)
    (h : IterInv conv ctx isPage ss r) :
    IterInv conv ctx isPage ss
      (iterSchedStep conv ctx isPage ⟨ss.map .content, .success⟩ r op) := by
  obtain ⟨k, hp, he, hr, hb⟩ := h
  cases op with
  | renderStep =>
    by_cases hc : r.completed = true
    · exact ⟨k, by simp [iterSchedStep, hc, hp], by simp [iterSchedStep, hc, he],
        by simp [iterSchedStep, hc, hr], by simp [iterSchedStep, hc, hb]⟩
    · cases hpend : r.pending with
      | nil =>
        refine ⟨k, ?_, ?_, ?_, ?_⟩ <;>
          simp [iterSchedStep, hc, hpend, ← hp, he, hr, hb]
      | cons c rest =>
        have hdk : (ss.map Chunk.content).drop k = c :: rest := by rw [← hp, hpend]
        have hget : (ss.map Chunk.content)[k]? = some c := by
          have h0 : ((ss.map Chunk.content).drop k)[0]? = some c := by rw [hdk]; simp
          rwa [List.getElem?_drop, Nat.add_zero] at h0
        obtain ⟨s, hs, hcs⟩ : ∃ s, ss[k]? = some s ∧ c = Chunk.content s := by
          rw [List.getElem?_map] at hget
          cases hss : ss[k]? with
          | none => rw [hss] at hget; simp at hget
          | some s => rw [hss] at hget; simp at hget; exact ⟨s, rfl, hget.symm⟩
        have hdrop1 : (ss.map Chunk.content).drop (k + 1) = rest := by
          have hdd := List.drop_drop 1 k (ss.map Chunk.content)
          rw [← hdd, hdk]
          rfl
        have htake : (ss.map Chunk.content).take (k + 1) =
            (ss.map Chunk.content).take k ++ [c] := by
          rw [List.take_succ, hget]
          rfl
        have htakes : ss.take (k + 1) = ss.take k ++ [s] := by
          rw [List.take_succ, hs]
          rfl
        subst hcs
        refine ⟨k + 1, ?_, ?_, ?_, ?_⟩
        · rw [iterSchedStep, if_neg hc, hpend]
          dsimp only
          rw [iterWrite_content conv ctx isPage r.st s rest]
          dsimp only
          exact hdrop1.symm
        · rw [iterSchedStep, if_neg hc, hpend]
          dsimp only
          rw [iterWrite_content conv ctx isPage r.st s rest]
          dsimp only
          exact he
        · rw [iterSchedStep, if_neg hc, hpend]
          dsimp only
          rw [iterWrite_content conv ctx isPage r.st s rest]
          dsimp only
          rw [hr]
          cases isPage <;> simp
        · rw [iterSchedStep, if_neg hc, hpend]
          dsimp only
          rw [iterWrite_content conv ctx isPage r.st s rest]
          dsimp only
          simp only [List.flatten_append, flatten_pushed, ← List.append_assoc, hb]
          have hmap : ((ss.take (k + 1)).map (conv.toBytes ctx)).flatten =
              ((ss.take k).map (conv.toBytes ctx)).flatten ++ conv.toBytes ctx s := by
            rw [htakes]
            simp
          rw [hmap]
          by_cases hk : k = 0
          · subst hk
            have hflag : r.st.renderedFirstPageChunk = false := by
              rw [hr]; simp
            have hdt0 : (dtIf ctx isPage r.st.renderedFirstPageChunk
                (Chunk.content s :: rest)).flatten =
                doctypeBytes ctx isPage ((ss.map Chunk.content).take 1) := by
              rw [hflag, htake]
              simp only [List.take_zero, List.nil_append]
              rw [dtIf_fresh]
              rw [show doctypeInserted ctx isPage (Chunk.content s :: rest) =
                doctypeInserted ctx isPage [Chunk.content s] from rfl]
              by_cases hins : doctypeInserted ctx isPage [Chunk.content s] = true <;>
                simp [doctypeBytes, hins]
            rw [hdt0]
            simp [doctypeBytes, doctypeInserted, List.append_assoc]
          · have hflag : r.st.renderedFirstPageChunk = isPage := by
              rw [hr]
              cases isPage <;> simp [hk]
            have hdt : (dtIf ctx isPage r.st.renderedFirstPageChunk
                (Chunk.content s :: rest)).flatten = [] := by
              rw [hflag]
              cases isPage <;> simp [dtIf]
            have hsame : doctypeBytes ctx isPage ((ss.map Chunk.content).take (k + 1)) =
                doctypeBytes ctx isPage ((ss.map Chunk.content).take k) := by
              obtain ⟨w, tl, hw⟩ : ∃ w tl, ss.map Chunk.content = w :: tl := by
                cases hl : ss.map Chunk.content with
                | nil => rw [hl] at hdk; simp at hdk
                | cons w tl => exact ⟨w, tl, rfl⟩
              obtain ⟨k2, rfl⟩ : ∃ k2, k = k2 + 1 := ⟨k - 1, by omega⟩
              rw [hw, List.take_succ_cons, List.take_succ_cons]
              rfl
            rw [hdt, hsame]
            simp [List.append_assoc]
  | pull =>
    by_cases hres : r.st.resolved = true
    · refine ⟨k, ?_, ?_, ?_, ?_⟩ <;>
        simp only [iterSchedStep, iterNext, hres, if_true, he, hp, hr] <;>
        simp [mergeBuffer_eq, hb, List.append_assoc]
    · simp only [Bool.not_eq_true] at hres
      exact ⟨k, by simp [iterSchedStep, iterNext, hres, hp],
        by simp [iterSchedStep, iterNext, hres, he],
        by simp [iterSchedStep, iterNext, hres, hr],
        by simp [iterSchedStep, iterNext, hres, hb]⟩

/-- The invariant holds after any schedule. -/
theorem iterInv_run (conv : Conversions) (ctx : SSRResult) (isPage : Bool)
    (ss : List String) (ops : List IterOp) :
    IterInv conv ctx isPage ss
      (iterSchedRun conv ctx isPage ⟨ss.map .content, .success⟩ ops) := by
  have hgen : ∀ (ops : List IterOp) (r : IterRun), IterInv conv ctx isPage ss r →
      IterInv conv ctx isPage ss
        (ops.foldl (iterSchedStep conv ctx isPage ⟨ss.map .content, .success⟩) r) := by
    intro ops
    induction ops with
    | nil => intro r hr; exact hr
    | cons op rest ih =>
      intro r hr
      exact ih _ (iterInv_step conv ctx isPage ss r op hr)
  exact hgen ops _ (iterInv_init conv ctx isPage ss)

/-- bufferHeadContent appends exactly the head fragment of every
head+content propagator, one per propagator, in iteration order. -/
theorem bufferHeadContent_eq (propagators : List FactoryResult) :
    ∀ extraHead, bufferHeadContent propagators extraHead =
      extraHead ++ propagators.filterMap headOf := by
  induction propagators with
  | nil => intro extraHead; simp [bufferHeadContent]
  | cons p rest ih =>
    intro extraHead
    simp only [bufferHeadContent, List.foldl_cons] at *
    cases hh : headOf p <;>
      simp [hh, ih, List.filterMap_cons, List.append_assoc]

/-- Closed form of renderToString over a template script that completes
successfully: the doctype decision on the first chunk, then the converted
text of the content chunks, Responses silently dropped; the context is
returned untouched (no head pass). -/
theorem renderToString_template (conv : Conversions) (ctx : SSRResult) (isPage : Bool)
    (routeData : Option RouteData) (writes : List Chunk) :
    renderToString conv ctx (.template ⟨writes, .success⟩) isPage routeData =
      .ok (ctx, Sum.inl
        ((if doctypeInserted ctx isPage writes then doctypeUnit ctx else "") ++
          strConcat (contentTexts conv ctx writes))) := by
  simp only [renderToString, callComponentAsTemplateResultOrResponse]
  rw [show ({ str := "", renderedFirstPageChunk := false } : StringWriteState) =
    ⟨"", false⟩ from rfl]
  rw [stringWrite_fold, dtStr_fresh]
  simp [String.empty_append]

/-- Closed form of the stream trace over an all-content script completing
successfully: doctype (when inserted), each chunk's bytes in order, close. -/
theorem streamTrace_content (conv : Conversions) (ctx : SSRResult) (isPage : Bool)
    (routeData : Option RouteData) (ss : List String) :
    streamTrace conv ctx isPage routeData ⟨ss.map .content, .success⟩ =
      ((if doctypeInserted ctx isPage (ss.map .content) then
          [encodeBytes (doctypeUnit ctx)] else []) ++
        ss.map (conv.toBytes ctx)).map StreamEvent.enqueue ++ [.close] := by
  simp only [streamTrace]
  rw [streamWriteEvents_content, dtIf_fresh]

/-- Closed form of the stream trace over an all-content script whose
render rejects: all enqueues first, then the single deferred error,
location-fixed. -/
theorem streamTrace_failure (conv : Conversions) (ctx : SSRResult) (isPage : Bool)
    (routeData : Option RouteData) (ss : List String) (e : RenderError) :
    streamTrace conv ctx isPage routeData ⟨ss.map .content, .failure e⟩ =
      ((if doctypeInserted ctx isPage (ss.map .content) then
          [encodeBytes (doctypeUnit ctx)] else []) ++
        ss.map (conv.toBytes ctx)).map StreamEvent.enqueue ++
        [.deferredError (catchLocationFix routeData e)] := by
  simp only [streamTrace]
  rw [streamWriteEvents_content, dtIf_fresh]

/-- Closed form of the stream trace when a Response chunk follows the
content prefix `pre`: the doctype (when due) and `pre`'s bytes are
enqueued, then the deferred, location-fixed ResponseSentError. -/
theorem streamTrace_response (conv : Conversions) (ctx : SSRResult) (isPage : Bool)
    (routeData : Option RouteData) (pre : List String) (r : Nat) (post : List Chunk)
    (outc : RenderOutcome) :
    streamTrace conv ctx isPage routeData ⟨pre.map .content ++ .response r :: post, outc⟩ =
      ((if doctypeInserted ctx isPage (pre.map .content ++ .response r :: post) then
          [encodeBytes (doctypeUnit ctx)] else []) ++
        pre.map (conv.toBytes ctx)).map StreamEvent.enqueue ++
        [.deferredError (catchLocationFix routeData (.astro responseSentError))] := by
  simp only [streamTrace]
  rw [streamWriteEvents_response, dtIf_fresh]

/-- The consumer-side bytes of a trace of enqueues followed by one closing
or erroring event. -/
theorem streamEnqueuedBytes_map (bs : List (List Nat)) (ev : StreamEvent)
    (hev : ∀ b, ev ≠ .enqueue b) :
    streamEnqueuedBytes (bs.map StreamEvent.enqueue ++ [ev]) = bs := by
  induction bs with
  | nil =>
    cases ev with
    | enqueue b => exact absurd rfl (hev b)
    | close => rfl
    | deferredError e => rfl
  | cons b rest ih =>
    simp only [List.map_cons, List.cons_append, streamEnqueuedBytes, List.filterMap_cons] at *
    rw [← streamEnqueuedBytes] at *
    simp [ih]

/-- A recorded error is rethrown by every subsequent `next()` call: the
throwing call leaves the state unchanged, so the trace of any number of
calls is that error repeated. -/
theorem iterNextTrace_error (st : IterState) (e : RenderError)
    (hres : st.resolved = true) (herr : st.error = some e) :
    ∀ m, iterNextTrace m st = List.replicate m (.error e) := by
  intro m
  induction m with
  | zero => rfl
  | succ m ih =>
    simp only [iterNextTrace, iterNext, hres, herr, if_true]
    simp [ih, List.replicate_succ]

theorem contentTexts_map_content (conv : Conversions) (ctx : SSRResult) (pre : List String) :
    contentTexts conv ctx (pre.map .content) = pre.map (conv.toText ctx) := by
  induction pre with
  | nil => rfl
  | cons s0 rest ih => simp [contentTexts, List.filterMap_cons] at *; exact ih

theorem contentTexts_append (conv : Conversions) (ctx : SSRResult) (l1 l2 : List Chunk) :
    contentTexts conv ctx (l1 ++ l2) = contentTexts conv ctx l1 ++ contentTexts conv ctx l2 := by
  simp [contentTexts, List.filterMap_append]

/-- C1: in every adapter, over an all-content script of a successful
render, the output is exactly the doctype unit — `<!DOCTYPE html>` when
compressHTML, otherwise with a trailing newline — followed by the
converted chunks in order, and the doctype appears precisely when the
render is a page, the context is not partial, and the first chunk does not
case-insensitively contain the doctype marker; in every other case (the
partial, non-page and marker-present cases, and every later chunk) the
closed forms place no doctype anywhere. -/
theorem doctype_insertion_unified (conv : Conversions) (ctx : SSRResult) (isPage : Bool)
    (routeData : Option RouteData) (ss : List String) :
    renderToString conv ctx (.template ⟨ss.map .content, .success⟩) isPage routeData =
      .ok (ctx, Sum.inl
        ((if doctypeInserted ctx isPage (ss.map .content) then doctypeUnit ctx else "") ++
          strConcat (contentTexts conv ctx (ss.map .content)))) ∧
    streamTrace conv ctx isPage routeData ⟨ss.map .content, .success⟩ =
      ((if doctypeInserted ctx isPage (ss.map .content) then
          [encodeBytes (doctypeUnit ctx)] else []) ++
        ss.map (conv.toBytes ctx)).map StreamEvent.enqueue ++ [.close] ∧
    (iterProducer conv ctx isPage ⟨ss.map .content, .success⟩).buffer =
      (if doctypeInserted ctx isPage (ss.map .content) then
          [encodeBytes (doctypeUnit ctx)] else []) ++ bytesFiltered conv ctx ss ∧
    doctypeInserted ctx isPage (ss.map .content) =
      (isPage && !ss.isEmpty && !ctx.isPartial && !doctypeMatch (ss.headD "")) ∧
    doctypeUnit ctx = (if ctx.compressHTML then "<!DOCTYPE html>" else "<!DOCTYPE html>\n") := by
  refine ⟨renderToString_template conv ctx isPage routeData (ss.map .content),
    streamTrace_content conv ctx isPage routeData ss, ?_, ?_, rfl⟩
  · rw [iterProducer_content, dtIf_fresh]
  · cases ss with
    | nil => simp [doctypeInserted]
    | cons s0 rest =>
      cases isPage <;> simp [doctypeInserted, jsStringOfChunk, Bool.and_assoc]

/-- C2: a top-level short-circuit Response is returned as-is by all three
adapters, with the context untouched (the head pass never runs) and with
no accumulation, no stream event and no buffered byte (the adapters return
before constructing any destination). -/
theorem short_circuit_response_all (conv : Conversions) (ctx : SSRResult) (isPage : Bool)
    (routeData : Option RouteData) (r : Nat) :
    renderToString conv ctx (.response r) isPage routeData = .ok (ctx, Sum.inr r) ∧
    renderToReadableStream conv ctx (.response r) isPage routeData = .ok (ctx, .response r) ∧
    renderToAsyncIterable conv ctx (.response r) isPage routeData = .ok (ctx, .response r) :=
  ⟨rfl, rfl, rfl⟩

/-- C3: a Response chunk written mid-stream is silently dropped by the
string adapter, which still returns the text of every other chunk, while
the stream and async-iterable adapters abort at that write with
ResponseSentError (the stream surfacing it as its deferred error event,
the iterable recording it for the next pull). -/
theorem midstream_response_policy (conv : Conversions) (ctx : SSRResult) (isPage : Bool)
    (routeData : Option RouteData) (pre : List String) (r : Nat) (post : List Chunk)
    (outc : RenderOutcome) :
    renderToString conv ctx
        (.template ⟨pre.map .content ++ .response r :: post, .success⟩) isPage routeData =
      .ok (ctx, Sum.inl
        ((if doctypeInserted ctx isPage (pre.map .content ++ .response r :: post) then
            doctypeUnit ctx else "") ++
          strConcat (contentTexts conv ctx (pre.map .content ++ .response r :: post)))) ∧
    contentTexts conv ctx (pre.map .content ++ .response r :: post) =
      pre.map (conv.toText ctx) ++ contentTexts conv ctx post ∧
    streamTrace conv ctx isPage routeData ⟨pre.map .content ++ .response r :: post, outc⟩ =
      ((if doctypeInserted ctx isPage (pre.map .content ++ .response r :: post) then
          [encodeBytes (doctypeUnit ctx)] else []) ++
        pre.map (conv.toBytes ctx)).map StreamEvent.enqueue ++
        [.deferredError (catchLocationFix routeData (.astro responseSentError))] ∧
    (iterProducer conv ctx isPage ⟨pre.map .content ++ .response r :: post, outc⟩).error =
      some (.astro responseSentError) ∧
    responseSentError.name = "ResponseSentError" := by
  refine ⟨renderToString_template conv ctx isPage routeData _, ?_,
    streamTrace_response conv ctx isPage routeData pre r post outc, ?_, rfl⟩
  · rw [contentTexts_append, contentTexts_map_content]
    simp [contentTexts, List.filterMap_cons]
  · rw [iterProducer_response]

/-- C4: a `next()` call returns nothing while the outstanding signal is
unresolved (it is still awaiting it); once resolved it rethrows a recorded
error leaving the state untouched, and otherwise returns the concatenation
of the buffered chunks in buffer order — whose length is the sum of the
chunk lengths — empties the buffer, and sets done exactly when that merged
array is empty, so it never returns an empty array with done false. -/
theorem iterator_next_spec (st : IterState) :
    (st.resolved = false → iterNext st = none) ∧
    (∀ e, st.resolved = true → st.error = some e → iterNext st = some (.error e, st)) ∧
    (st.resolved = true → st.error = none →
      iterNext st = some (.ok { done := st.buffer.flatten.isEmpty, value := st.buffer.flatten },
        { st with buffer := [] }) ∧
      (mergeBuffer st.buffer).length = (st.buffer.map List.length).sum) := by
  have hlen : totalLength st.buffer = st.buffer.flatten.length := by
    rw [totalLength_eq, List.length_flatten]
  have hdone : (totalLength st.buffer == 0) = st.buffer.flatten.isEmpty := by
    rw [hlen]
    cases hf : st.buffer.flatten <;> simp
  refine ⟨fun h => by simp [iterNext, h],
    fun e h1 h2 => by simp [iterNext, h1, h2],
    fun h1 h2 => ⟨?_, ?_⟩⟩
  · simp [iterNext, h1, h2, mergeBuffer_eq, hdone]
  · rw [mergeBuffer_eq, List.length_flatten]

/-- C5 counterexample: a render driven by the stream adapter fails with a
plain (non-Astro) error value carrying no source location, and the
surfaced error has no `{file: route.component}` attached — the location
fix applies only behind the `AstroError.is` guard, so the claim as stated
is false for this input. -/
theorem stream_error_location_counterexample :
    streamTrace convEx ctxEx false (some routeEx) ⟨[], .failure (.other 0)⟩ =
      [.deferredError (.other 0)] ∧
    hasLoc (.other 0) = false ∧
    errFile (.other 0) ≠ some (some "pages/index.astro") := by
  refine ⟨?_, rfl, by decide⟩
  have := streamTrace_failure convEx ctxEx false (some routeEx) [] (.other 0)
  simpa [doctypeInserted, catchLocationFix, AstroErrorIs] using this

/-- C5 (amended): for a stream-adapter render whose render operation
fails, the error event is deferred and strictly follows every enqueued
chunk; an AstroError lacking a source location gets `{file:
route.component}` attached before surfacing, while an AstroError that has
a location and any non-Astro error value surface unchanged; on success the
stream is closed instead. -/
theorem stream_failure_deferred_and_located (conv : Conversions) (ctx : SSRResult)
    (isPage : Bool) (routeData : Option RouteData) (ss : List String) (e : RenderError) :
    streamTrace conv ctx isPage routeData ⟨ss.map .content, .failure e⟩ =
      ((if doctypeInserted ctx isPage (ss.map .content) then
          [encodeBytes (doctypeUnit ctx)] else []) ++
        ss.map (conv.toBytes ctx)).map StreamEvent.enqueue ++
        [.deferredError (catchLocationFix routeData e)] ∧
    (∀ a : AstroErr, a.loc = none → catchLocationFix routeData (.astro a) =
      .astro ⟨a.name, some ⟨routeData.map RouteData.component⟩, a.msgArgs⟩) ∧
    (∀ (a : AstroErr) (l : ErrorLocation), a.loc = some l →
      catchLocationFix routeData (.astro a) = .astro a) ∧
    (∀ tag : Nat, catchLocationFix routeData (.other tag) = .other tag) ∧
    streamTrace conv ctx isPage routeData ⟨ss.map .content, .success⟩ =
      ((if doctypeInserted ctx isPage (ss.map .content) then
          [encodeBytes (doctypeUnit ctx)] else []) ++
        ss.map (conv.toBytes ctx)).map StreamEvent.enqueue ++ [.close] := by
  refine ⟨streamTrace_failure conv ctx isPage routeData ss e, ?_, ?_, ?_,
    streamTrace_content conv ctx isPage routeData ss⟩
  · intro a ha
    simp [catchLocationFix, AstroErrorIs, hasLoc, ha]
  · intro a l ha
    simp [catchLocationFix, AstroErrorIs, hasLoc, ha]
  · intro tag
    simp [catchLocationFix, AstroErrorIs]

/-- C6: the head pass visits each propagator once, appending the head of
every head+content init result to extraHead in iteration order; for pages
the stream and async-iterable adapters run it to completion before driving
any body chunk (their outputs are computed under the updated context),
while the string adapter runs no such pass and leaves the context
untouched. -/
theorem head_propagation_pass (conv : Conversions) (ctx : SSRResult)
    (routeData : Option RouteData) (t : TemplateResult) (writes : List Chunk) :
    bufferHeadContent ctx.metadata.propagators ctx.metadata.extraHead =
      ctx.metadata.extraHead ++ ctx.metadata.propagators.filterMap headOf ∧
    (runBufferHeadContent ctx).metadata.extraHead =
      ctx.metadata.extraHead ++ ctx.metadata.propagators.filterMap headOf ∧
    (runBufferHeadContent ctx).metadata.propagators = ctx.metadata.propagators ∧
    renderToReadableStream conv ctx (.template t) true routeData =
      .ok (runBufferHeadContent ctx,
        .stream (streamTrace conv (runBufferHeadContent ctx) true routeData t)) ∧
    renderToAsyncIterable conv ctx (.template t) true routeData =
      .ok (runBufferHeadContent ctx,
        .iterable (iterProducer conv (runBufferHeadContent ctx) true t)) ∧
    renderToString conv ctx (.template ⟨writes, .success⟩) true routeData =
      .ok (ctx, Sum.inl
        ((if doctypeInserted ctx true writes then doctypeUnit ctx else "") ++
          strConcat (contentTexts conv ctx writes))) := by
  refine ⟨bufferHeadContent_eq ctx.metadata.propagators ctx.metadata.extraHead, ?_, rfl,
    rfl, rfl, renderToString_template conv ctx true routeData writes⟩
  simp [runBufferHeadContent, bufferHeadContent_eq]

/-- C7: byte conservation.  For an all-content script of a completed
render: under any consumer/producer interleaving that finishes with the
render settled and the buffer drained, the concatenation of all arrays the
async-iterable consumer pulled equals the doctype bytes (when inserted)
followed by the converted bytes of every written chunk in order, and the
concatenation of all chunks the stream adapter enqueues is the same — no
byte duplicated, dropped or reordered, and the delivered byte totals agree
with the sum of the converted byte lengths plus the doctype. -/
theorem byte_conservation (conv : Conversions) (ctx : SSRResult) (isPage : Bool)
    (routeData : Option RouteData) (ss : List String) (ops : List IterOp)
    (hpend : (iterSchedRun conv ctx isPage ⟨ss.map .content, .success⟩ ops).pending = [])
    (hbuf : (iterSchedRun conv ctx isPage ⟨ss.map .content, .success⟩ ops).st.buffer = []) :
    (iterSchedRun conv ctx isPage ⟨ss.map .content, .success⟩ ops).delivered.flatten =
      doctypeBytes ctx isPage (ss.map .content) ++ (ss.map (conv.toBytes ctx)).flatten ∧
    (streamEnqueuedBytes
        (streamTrace conv ctx isPage routeData ⟨ss.map .content, .success⟩)).flatten =
      doctypeBytes ctx isPage (ss.map .content) ++ (ss.map (conv.toBytes ctx)).flatten := by
  constructor
  · obtain ⟨k, hp, he, hr, hb⟩ := iterInv_run conv ctx isPage ss ops
    rw [hpend] at hp
    rw [hbuf] at hb
    have hk : ss.length ≤ k := by
      have := List.drop_eq_nil_iff.mp hp.symm
      simpa using this
    have ht1 : (ss.map Chunk.content).take k = ss.map Chunk.content :=
      List.take_of_length_le (by simpa using hk)
    have ht2 : ss.take k = ss := List.take_of_length_le hk
    rw [ht1, ht2] at hb
    simpa using hb
  · rw [streamTrace_content, streamEnqueuedBytes_map _ _ (by intro b; simp)]
    by_cases hins : doctypeInserted ctx isPage (ss.map .content) = true <;>
      simp [hins, doctypeBytes]

/-- C7 witness: a two-chunk page render, fully pulled after completion. -/
theorem byte_conservation_witness :
    (iterSchedRun convEx ctxEx true ⟨["<html>", "x"].map .content, .success⟩
        [.renderStep, .renderStep, .renderStep, .pull]).delivered.flatten =
      doctypeBytes ctxEx true (["<html>", "x"].map .content) ++
        (["<html>", "x"].map (convEx.toBytes ctxEx)).flatten ∧
    (streamEnqueuedBytes
        (streamTrace convEx ctxEx true (some routeEx) ⟨["<html>", "x"].map .content, .success⟩)).flatten =
      doctypeBytes ctxEx true (["<html>", "x"].map .content) ++
        (["<html>", "x"].map (convEx.toBytes ctxEx)).flatten :=
  byte_conservation convEx ctxEx true (some routeEx) ["<html>", "x"]
    [.renderStep, .renderStep, .renderStep, .pull] (by decide) (by decide)

/-- C8: the entry dispatcher returns a fatal OnlyResponseCanBeReturned
configuration error — location `{file: route.component}`, message built
from the route and the result's typeof — for any factory result that is
neither a Response nor a composable render node, and each adapter
propagates it before any rendering stage runs; a head+content pair is
unwrapped to its content and a template result passes through. -/
theorem dispatcher_classification (conv : Conversions) (ctx : SSRResult) (isPage : Bool)
    (routeData : Option RouteData) (typeTag : String) (t content : TemplateResult)
    (head : String) :
    callComponentAsTemplateResultOrResponse routeData (.invalid typeTag) =
      .error (.astro ⟨"OnlyResponseCanBeReturned", some ⟨routeData.map RouteData.component⟩,
        some (routeData.map RouteData.route, typeTag)⟩) ∧
    renderToString conv ctx (.invalid typeTag) isPage routeData =
      .error (.astro (onlyResponseCanBeReturnedError routeData typeTag)) ∧
    renderToReadableStream conv ctx (.invalid typeTag) isPage routeData =
      .error (.astro (onlyResponseCanBeReturnedError routeData typeTag)) ∧
    renderToAsyncIterable conv ctx (.invalid typeTag) isPage routeData =
      .error (.astro (onlyResponseCanBeReturnedError routeData typeTag)) ∧
    callComponentAsTemplateResultOrResponse routeData (.headAndContent head content) =
      .ok (.template content) ∧
    callComponentAsTemplateResultOrResponse routeData (.template t) = .ok (.template t) :=
  ⟨rfl, rfl, rfl, rfl, rfl, rfl⟩

/-- C9: the doctype decision is made on the raw first chunk before the
Response check, so when the very first written chunk of a full non-partial
page is a Response the doctype is still emitted — appended by the string
adapter, enqueued by the stream adapter and buffered by the async-iterable
adapter before their ResponseSentError — and the Response consumes the
first-chunk slot, so no later chunk triggers insertion. -/
theorem doctype_before_response_check (conv : Conversions) (compress : Bool) (md : Metadata)
    (routeData : Option RouteData) (r : Nat) (post : List Chunk) (outc : RenderOutcome) :
    renderToString conv ⟨false, compress, md⟩
        (.template ⟨.response r :: post, .success⟩) true routeData =
      .ok (⟨false, compress, md⟩, Sum.inl
        (doctypeUnit ⟨false, compress, md⟩ ++
          strConcat (contentTexts conv ⟨false, compress, md⟩ post))) ∧
    streamTrace conv ⟨false, compress, md⟩ true routeData ⟨.response r :: post, outc⟩ =
      [.enqueue (encodeBytes (doctypeUnit ⟨false, compress, md⟩)),
        .deferredError (catchLocationFix routeData (.astro responseSentError))] ∧
    iterProducer conv ⟨false, compress, md⟩ true ⟨.response r :: post, outc⟩ =
      ⟨some (.astro responseSentError), [encodeBytes (doctypeUnit ⟨false, compress, md⟩)],
        true, true⟩ := by
  have hmatch : doctypeMatch "[object Response]" = false := by decide
  have hins : doctypeInserted ⟨false, compress, md⟩ true (Chunk.response r :: post) = true := by
    simp [doctypeInserted, jsStringOfChunk, hmatch]
  refine ⟨?_, ?_, ?_⟩
  · rw [renderToString_template]
    simp [hins, contentTexts, List.filterMap_cons]
  · have hst := streamTrace_response conv ⟨false, compress, md⟩ true routeData [] r post outc
    simpa [hins] using hst
  · have hit := iterProducer_response conv ⟨false, compress, md⟩ true [] r post outc
    simp only [List.map_nil, List.nil_append] at hit
    rw [hit]
    simp [dtIf, jsStringOfChunk, hmatch, bytesFiltered]

/-- C10: once the async-iterable render task rejects, the error is
recorded with the outstanding signal resolved, and every subsequent
`next()` call — not only the first — rethrows that same error, since a
throwing call leaves the state untouched and no write replaces the
signal after the failure. -/
theorem persistent_iterable_error (conv : Conversions) (ctx : SSRResult) (isPage : Bool)
    (ss : List String) (e : RenderError) (n : Nat) :
    (iterProducer conv ctx isPage ⟨ss.map .content, .failure e⟩).error = some e ∧
    (iterProducer conv ctx isPage ⟨ss.map .content, .failure e⟩).resolved = true ∧
    iterNextTrace n (iterProducer conv ctx isPage ⟨ss.map .content, .failure e⟩) =
      List.replicate n (.error e) ∧
    (∀ (st : IterState) (e2 : RenderError) (m : Nat), st.resolved = true →
      st.error = some e2 → iterNextTrace m st = List.replicate m (.error e2)) := by
  refine ⟨?_, ?_, ?_, fun st e2 m h1 h2 => iterNextTrace_error st e2 h1 h2 m⟩
  · rw [iterProducer_content_failure]
  · rw [iterProducer_content_failure]
  · exact iterNextTrace_error _ e (by rw [iterProducer_content_failure])
      (by rw [iterProducer_content_failure]) n

end AstroRender
